import Mathlib

/-!
Verification development for the SysGraph rule engine (`src/rules/__init__.py`).

The Python snapshot (a nested structure of dicts, lists and scalars produced
by `snapshot.dict()`) is embedded as the algebraic type `Value`.  Python
numbers are embedded as rationals; Python `None` is `Value.null`; field
resolution, condition evaluation, confidence post-processing and the
orchestrator loop are translated function by function.  Operations of the
source that can raise a Python exception are modelled in `Option` (with
`none` standing for a raised exception) and the source's `try/except`
blocks become `Option.getD`.
-/

namespace SysGraph

/-- A snapshot value: the untyped nested data `snapshot.dict()` produces
(dicts, lists, numbers, strings, booleans, `None`).  Mappings are
association lists; Python dict keys are unique, lookup takes the first
binding. -/
inductive Value where
  | null : Value
  | bool (b : Bool) : Value
  | num (q : ℚ) : Value
  | str (s : String) : Value
  | seq (xs : List Value) : Value
  | map (kvs : List (String × Value)) : Value
deriving Repr

/-- Python dict lookup `d[k]` / `k in d`: first binding wins. -/
def mapGet : List (String × Value) → String → Option Value
  | [], _ => none
  | (k, v) :: rest, key => if k = key then some v else mapGet rest key

/-- Python `d.get(k, default)`. -/
def mapGetD (kvs : List (String × Value)) (key : String) (default : Value) : Value :=
  (mapGet kvs key).getD default

/-- Python truthiness `bool(x)` on snapshot values: `None`, `False`, zero,
the empty string, the empty list and the empty dict are falsy. -/
def truthy : Value → Bool
  | .null => false
  | .bool b => b
  | .num q => q != 0
  | .str s => s ≠ ""
  | .seq xs => !xs.isEmpty
  | .map kvs => !kvs.isEmpty

/-- Digit run to a natural number; `none` when empty or a non-digit occurs. -/
def digitsVal : List Char → Option Nat
  | [] => none
  | cs => cs.foldl (fun acc c => do
      let a ← acc
      if c.isDigit then some (a * 10 + (c.toNat - 48)) else none) (some 0)

/-- Python `float(s)` on a decimal string: optional sign, digits with an
optional fractional part (e.g. "95", "-1.5", "1.", ".5").  Exotic float
syntax (exponents, inf/nan, underscores) is not modelled; no built-in rule
or claim coerces such a string. -/
def parseRat (s : String) : Option ℚ := do
  let cs := s.trim.data
  let (sign, cs) := match cs with
    | '-' :: rest => ((-1 : ℚ), rest)
    | '+' :: rest => ((1 : ℚ), rest)
    | rest => ((1 : ℚ), rest)
  let intPart := cs.takeWhile (· ≠ '.')
  let rest := cs.dropWhile (· ≠ '.')
  match rest with
  | [] =>
    let n ← digitsVal intPart
    return sign * n
  | _ :: fracPart =>
    if fracPart.all Char.isDigit ∧ intPart.all Char.isDigit ∧
        (intPart ≠ [] ∨ fracPart ≠ []) then
      let ip := (digitsVal intPart).getD 0
      let fp := (digitsVal fracPart).getD 0
      return sign * ((ip : ℚ) + (fp : ℚ) / ((10 : ℚ) ^ fracPart.length))
    else
      none

/-- Python `float(x)`: numbers pass through, booleans coerce to 1/0,
numeric strings parse, everything else (`None`, lists, dicts) raises
`TypeError`/`ValueError`, modelled as `none`. -/
def pyFloat? : Value → Option ℚ
  | .num q => some q
  | .bool b => some (if b then 1 else 0)
  | .str s => parseRat s
  | _ => none

/-- Target of a raw Python comparison with a number (`len(xs) > target`,
`avg_value > target_value`): only numbers and booleans compare, any other
type raises `TypeError`, modelled as `none`.  Unlike `float(x)` this does
not parse strings. -/
def numTarget? : Value → Option ℚ
  | .num q => some q
  | .bool b => some (if b then 1 else 0)
  | _ => none

mutual
/-- Python `==` on snapshot values: `None` equals only `None`; booleans and
numbers compare numerically (`True == 1`); strings, lists and dicts compare
structurally; values of unrelated types are unequal. -/
def pyEq : Value → Value → Bool
  | .null, .null => true
  | .bool a, .bool b => a == b
  | .bool a, .num q => (if a then (1 : ℚ) else 0) == q
  | .num q, .bool b => q == (if b then (1 : ℚ) else 0)
  | .num a, .num b => a == b
  | .str a, .str b => a == b
  | .seq xs, .seq ys => pyEqList xs ys
  | .map xs, .map ys => pyEqPairs xs ys
  | _, _ => false

def pyEqList : List Value → List Value → Bool
  | [], [] => true
  | x :: xs, y :: ys => pyEq x y && pyEqList xs ys
  | _, _ => false

/-- Dict equality, elementwise on the association list.  (Python dict
equality is key-order-insensitive; snapshot dicts have a fixed field order
so the difference is unobservable here, and no rule compares dicts.) -/
def pyEqPairs : List (String × Value) → List (String × Value) → Bool
  | [], [] => true
  | (k₁, v₁) :: xs, (k₂, v₂) :: ys => k₁ == k₂ && pyEq v₁ v₂ && pyEqPairs xs ys
  | _, _ => false
end

/-- Rendering of a rational for `str(x)`; exact on integers, abstracts
Python float formatting otherwise (no claim inspects rendered numbers). -/
def ratStr (q : ℚ) : String :=
  if q.den = 1 then toString q.num else toString q.num ++ "/" ++ toString q.den

mutual
/-- Python `str(x)` on snapshot values.  Exact on the cases any claim
exercises: `str(None) = "None"`, `str(True) = "True"`, `str(False) =
"False"`, and a string maps to itself.  Rendering of numbers and of nested
containers (Python would use `repr` of the elements) is abstracted. -/
def pyStr : Value → String
  | .null => "None"
  | .bool true => "True"
  | .bool false => "False"
  | .num q => ratStr q
  | .str s => s
  | .seq xs => "[" ++ String.intercalate ", " (pyStrList xs) ++ "]"
  | .map kvs => "\x7b" ++ String.intercalate ", " (pyStrPairs kvs) ++ "\x7d"

def pyStrList : List Value → List String
  | [] => []
  | x :: xs => pyStr x :: pyStrList xs

def pyStrPairs : List (String × Value) → List String
  | [] => []
  | (k, v) :: rest => (k ++ ": " ++ pyStr v) :: pyStrPairs rest
end

/-- `needle in hay` for strings (Python substring test). -/
def strContains (hay needle : String) : Bool :=
  go hay.data
where
  go : List Char → Bool
    | [] => needle.data.isPrefixOf []
    | l@(_ :: t) => needle.data.isPrefixOf l || go t

/-- Python `path.split('.')`: split on every dot; the empty string splits
to `[""]`, a trailing dot contributes a final empty component. -/
def splitOnDot (s : String) : List String :=
  go s.data []
where
  go : List Char → List Char → List String
    | [], acc => [String.mk acc.reverse]
    | x :: xs, acc =>
      if x = '.' then String.mk acc.reverse :: go xs [] else go xs (x :: acc)

/-- Split a character list at the first occurrence of `sep` (non-empty):
`some (before, after)` or `none` when `sep` does not occur — the
combination of Python's `sep in s` test and `s.split(sep, 1)`. -/
def splitFirstOn (sep : List Char) : List Char → Option (List Char × List Char)
  | [] => none
  | l@(x :: xs) =>
    if sep.isPrefixOf l then some ([], l.drop sep.length)
    else
      match splitFirstOn sep xs with
      | some (a, b) => some (x :: a, b)
      | none => none

/-- `'[*]' in field_path` plus `field_path.split('[*]', 1)`: the base path
and sub-path around the first `[*]` marker, or `none` when the path has no
marker. -/
def splitWildcard (s : String) : Option (String × String) :=
  (splitFirstOn ['[', '*', ']'] s.data).map fun p => (String.mk p.1, String.mk p.2)

/-- `RuleEngine._get_nested_value`: walk the dot-separated keys; any missing
intermediate key (or a non-dict on the way) yields `None`. -/
def getNestedValue (data : Value) (path : String) : Value :=
  go data (splitOnDot path)
where
  go : Value → List String → Value
    | current, [] => current
    | .map kvs, key :: keys =>
      match mapGet kvs key with
      | some next => go next keys
      | none => .null
    | _, _ :: _ => .null

/-- The `array_field.startswith('.')` strip (`array_field[1:]`) in
`_get_field_value`. -/
def stripLeadingDot (s : String) : String :=
  match s.data with
  | '.' :: rest => String.mk rest
  | _ => s

/-- The wildcard branch of `RuleEngine._get_field_value`, after
`field_path.split('[*]', 1)` produced `base_path` and `array_field`:
resolve the base; a non-list base yields `[]`; an empty (stripped)
sub-path returns the base list itself; otherwise the sub-path is resolved
against each dict element (non-dict elements are filtered out by the
`isinstance(item, dict)` guard of the comprehension). -/
def wildcardResolve (data : Value) (basePath arrayField : String) : Value :=
  match getNestedValue data basePath with
  | .seq base =>
    let arrayField := stripLeadingDot arrayField
    if arrayField ≠ "" then
      .seq (base.filterMap fun item =>
        match item with
        | .map kvs => some (getNestedValue (.map kvs) arrayField)
        | _ => none)
    else
      .seq base
  | _ => .seq []

/-- `RuleEngine._get_field_value`: a path containing `'[*]'` is split at its
first occurrence into base and sub-path and resolved by `wildcardResolve`;
any other path is a plain nested lookup. -/
def getFieldValue (data : Value) (fieldPath : String) : Value :=
  match splitWildcard fieldPath with
  | some (basePath, arrayField) => wildcardResolve data basePath arrayField
  | none => getNestedValue data fieldPath

/-- Truthiness of the `field_check` guard (`operator == 'all_false' and
field_check`): present and non-empty. -/
def fcTruthy : Option String → Bool
  | none => false
  | some s => s ≠ ""

/-- The `all(not item.get(field_check, True) for item in field_value)`
generator: elements are visited in order; a truthy (or missing, default
`True`) sub-value short-circuits to `False`; reaching a non-dict element
raises `AttributeError` (`none`). -/
def allFalseCore (fieldCheck : String) : List Value → Option Bool
  | [] => some true
  | .map kvs :: rest =>
    if truthy (mapGetD kvs fieldCheck (.bool true)) then some false
    else allFalseCore fieldCheck rest
  | _ :: _ => none

/-- The `any(item.get(field_check, False) for item in field_value)`
generator: a truthy sub-value short-circuits to `True`; a missing key
defaults to `False`; a non-dict element raises (`none`). -/
def anyTrueCore (fieldCheck : String) : List Value → Option Bool
  | [] => some false
  | .map kvs :: rest =>
    if truthy (mapGetD kvs fieldCheck (.bool false)) then some true
    else anyTrueCore fieldCheck rest
  | _ :: _ => none

/-- The numeric elements Python's
`[v for v in field_value if isinstance(v, (int, float)) and v is not None]`
keeps: numbers, and booleans (a Python `bool` is an `int`, `True` counts
as 1). -/
def numericElems (xs : List Value) : List ℚ :=
  xs.filterMap fun v =>
    match v with
    | .num q => some q
    | .bool b => some (if b then 1 else 0)
    | _ => none

/-- `isinstance(x, list)`. -/
def isSeqB : Value → Bool
  | .seq _ => true
  | _ => false

/-- The body of `RuleEngine._evaluate_condition` before its `except`
handler: the `elif` chain on the operator string.  `none` models a raised
exception inside the `try`. -/
def evalConditionCore (fieldValue : Value) (operator : String) (targetValue : Value)
    (fieldCheck : Option String) : Option Bool :=
  if operator = ">" then do
    let a ← pyFloat? fieldValue
    let b ← pyFloat? targetValue
    return a > b
  else if operator = "<" then do
    let a ← pyFloat? fieldValue
    let b ← pyFloat? targetValue
    return a < b
  else if operator = ">=" then do
    let a ← pyFloat? fieldValue
    let b ← pyFloat? targetValue
    return a ≥ b
  else if operator = "<=" then do
    let a ← pyFloat? fieldValue
    let b ← pyFloat? targetValue
    return a ≤ b
  else if operator = "==" then
    some (pyEq fieldValue targetValue)
  else if operator = "!=" then
    some (!pyEq fieldValue targetValue)
  else if operator = "contains" then
    match targetValue with
    | .str needle => some (strContains (pyStr fieldValue) needle)
    | _ => none
  else if operator = "count" then
    match fieldValue with
    | .seq xs =>
      match numTarget? targetValue with
      | some t => some (decide ((xs.length : ℚ) > t))
      | none => none
    | _ => some false
  else if operator = "all_false" ∧ fcTruthy fieldCheck then
    match fieldValue with
    | .seq xs => allFalseCore ((fieldCheck).getD "") xs
    | _ => some false
  else if operator = "none_true" ∧ fcTruthy fieldCheck then
    match fieldValue with
    | .seq xs => (anyTrueCore ((fieldCheck).getD "") xs).map (!·)
    | _ => some false
  else if operator = "avg>" ∧ isSeqB fieldValue then
    match fieldValue with
    | .seq xs =>
      let numericValues := numericElems xs
      if numericValues ≠ [] then
        match numTarget? targetValue with
        | some t => some (decide (numericValues.sum / numericValues.length > t))
        | none => none
      else
        some false
    | _ => some false
  else
    some false

/-- `RuleEngine._evaluate_condition`: the `try` body with the
`except`-returns-`False` handler folded in.  Total by construction. -/
def evaluateCondition (fieldValue : Value) (operator : String) (targetValue : Value)
    (fieldCheck : Option String) : Bool :=
  (evalConditionCore fieldValue operator targetValue fieldCheck).getD false

/-- One condition dict of a rule.  `condition.get('value')` gives Python
`None` both for an absent key and an explicit `null`, so the target is a
plain `Value` with `.null` for "omitted"; `field_check` may be absent. -/
structure Condition where
  field : String
  operator : String
  value : Value
  field_check : Option String
deriving Repr

/-- One action dict of a rule: its `type` plus the optional keys the two
recognized kinds read (`severity`, `message`, `recommendation`, `level`). -/
structure Action where
  type : String
  severity : Option String
  message : Option String
  recommendation : Option String
  level : Option String
deriving Repr

/-- The `Rule` pydantic model.  `version`/`author` are carried as strings;
the `created_at`/`updated_at` timestamps are informational and outside the
model.  Note the model does not constrain `confidence` to `[0,1]`. -/
structure Rule where
  rule_id : String
  name : String
  category : String
  description : String
  severity : String
  conditions : List Condition
  actions : List Action
  enabled : Bool := true
  confidence : ℚ := 4/5
  version : String := "1.0.0"
  author : String := "system"
deriving Repr

/-- The `DiagnosisIssue` pydantic model (its `timestamp` field, wall-clock,
is outside the model). -/
structure DiagnosisIssue where
  issue_id : String
  category : String
  severity : String
  title : String
  description : String
  recommendation : String
  confidence : ℚ
  evidence : List String
deriving Repr

/-- The `RuleExecutionResult` pydantic model (wall-clock `timestamp`
omitted; `execution_time` is carried but its measured value is abstracted
as a rational). -/
structure RuleExecutionResult where
  rule_id : String
  matched : Bool
  confidence : ℚ
  evidence : List String
  actions_taken : List String
  issues_found : List DiagnosisIssue
  execution_time : ℚ
deriving Repr

/-- The slice of `RuleEngineConfiguration` the engine reads. -/
structure RuleEngineConfiguration where
  enable_builtin_rules : Bool := true
  enable_remote_rules : Bool := true
  rules_update_interval : ℚ := 86400
  rule_confidence_threshold : ℚ := 4/5
deriving Repr

/-- Evidence line for a matched condition
(`f"{field} {operator} {value}: 匹配"`). -/
def matchEvidence (c : Condition) : String :=
  c.field ++ " " ++ c.operator ++ " " ++ pyStr c.value ++ ": 匹配"

/-- Evidence line for an unmatched condition
(`f"...: 不匹配 (实际值: {field_value})"`). -/
def mismatchEvidence (c : Condition) (fieldValue : Value) : String :=
  c.field ++ " " ++ c.operator ++ " " ++ pyStr c.value ++
    ": 不匹配 (实际值: " ++ pyStr fieldValue ++ ")"

/-- `RuleEngine._check_conditions`: every condition is evaluated (logical
AND over all of them), evidence is collected in declaration order.  In
the embedding `_get_field_value`/`_evaluate_condition` are total, so the
per-condition `except` arm is unreachable. -/
def checkConditions (snapshotDict : Value) (conditions : List Condition) :
    Bool × List String :=
  conditions.foldl
    (fun (acc : Bool × List String) c =>
      let fieldValue := getFieldValue snapshotDict c.field
      let matched := evaluateCondition fieldValue c.operator c.value c.field_check
      if matched then
        (acc.1, acc.2 ++ [matchEvidence c])
      else
        (false, acc.2 ++ [mismatchEvidence c fieldValue]))
    (true, [])

/-- `RuleEngine._execute_action`: `create_issue` builds one
`DiagnosisIssue` (issue id = rule id + current timestamp, supplied here as
`now`); `log` only logs; an unknown type is a no-op record.  Returns the
action description and the issue, if any. -/
def executeAction (now : String) (rule : Rule) (evidence : List String)
    (action : Action) : String × Option DiagnosisIssue :=
  if action.type = "create_issue" then
    ("创建问题: " ++ rule.name, some
      { issue_id := rule.rule_id ++ "_" ++ now
        category := rule.category
        severity := action.severity.getD rule.severity
        title := rule.name
        description := action.message.getD rule.description
        recommendation := action.recommendation.getD ("请检查" ++ rule.category ++ "相关配置")
        confidence := rule.confidence
        evidence := evidence })
  else if action.type = "log" then
    ("记录日志: " ++ action.message.getD ("规则 " ++ rule.name ++ " 被触发"), none)
  else
    ("未知动作类型: " ++ action.type, none)

/-- The confidence post-processing of `_execute_single_rule`:
`confidence = rule.confidence if matched else 0.0`, then matched rules
above the configured threshold are boosted by 1.1, capped at 1.0. -/
def postConfidence (matched : Bool) (base threshold : ℚ) : ℚ :=
  let confidence := if matched then base else 0
  if matched ∧ base > threshold then min 1 (confidence * (11/10)) else confidence

/-- `RuleEngine._execute_single_rule`: check the conditions, run the
actions when matched, compute the reported confidence
(`execution_time` is overwritten by the caller; 0 here). -/
def executeSingleRule (now : String) (config : RuleEngineConfiguration)
    (rule : Rule) (snapshotDict : Value) : RuleExecutionResult :=
  let (matched, evidence) := checkConditions snapshotDict rule.conditions
  let actionResults :=
    if matched then rule.actions.map (executeAction now rule evidence) else []
  { rule_id := rule.rule_id
    matched := matched
    confidence := postConfidence matched rule.confidence config.rule_confidence_threshold
    evidence := evidence
    actions_taken := actionResults.map Prod.fst
    issues_found := actionResults.filterMap Prod.snd
    execution_time := 0 }

/-- `RuleEngine.get_all_rules`: built-in and remote rules, gated by the
enable flags, filtered to the enabled ones. -/
def getAllRules (config : RuleEngineConfiguration)
    (builtinRules remoteRules : List Rule) : List Rule :=
  ((if config.enable_builtin_rules then builtinRules else []) ++
    (if config.enable_remote_rules then remoteRules else [])).filter (·.enabled)

/-- The zero-confidence unmatched result `execute_rules` builds in its
per-rule `except` arm (lines 381–389): matched `False`, confidence `0.0`,
empty evidence/actions/issues. -/
def failedResult (ruleId : String) : RuleExecutionResult :=
  { rule_id := ruleId
    matched := false
    confidence := 0
    evidence := []
    actions_taken := []
    issues_found := []
    execution_time := 0 }

/-- The per-rule loop of `RuleEngine.execute_rules`: every rule is run
independently; a raised exception (the `.error` case of the single-rule
executor, which covers any failure while evaluating or acting on the rule)
is caught and replaced by `failedResult`, and the loop continues.  The
single-rule executor is a parameter so that the theorem can quantify over
every possible exception site; the exception-free executor is
`fun r => .ok (executeSingleRule now config r snapshotDict)`. -/
def executeRules (execSingle : Rule → Except String RuleExecutionResult)
    (rules : List Rule) : List RuleExecutionResult :=
  rules.map fun rule =>
    match execSingle rule with
    | .ok result => result
    | .error _ => failedResult rule.rule_id

/-- One rule record inside a parsed rule file: either it validates into a
`Rule` (`Rule(**rule_data)`) or pydantic validation raises. -/
inductive RuleRecord where
  | valid (r : Rule) : RuleRecord
  | invalid : RuleRecord
deriving Repr

/-- One cached rule file as `_load_cached_remote_rules` sees it:
unparseable (`json.load`/`yaml.safe_load` raises), a top-level list of
rule records, a dict with a `rules` key, or other well-formed data
(contributes nothing). -/
inductive RuleFile where
  | malformed : RuleFile
  | flatList (records : List RuleRecord) : RuleFile
  | rulesObj (records : List RuleRecord) : RuleFile
  | otherData : RuleFile
deriving Repr

/-- Rules a record list contributes to the shared `remote_rules` list:
records validate in order and append one by one; the first invalid record
raises, ending that file's loop — records already appended stay. -/
def validLeading : List RuleRecord → List Rule
  | [] => []
  | .valid r :: rest => r :: validLeading rest
  | .invalid :: _ => []

/-- Rules one cached file contributes (the per-file `try` arm of
`_load_cached_remote_rules`): a file that fails to parse contributes
nothing and is skipped. -/
def loadRuleFile : RuleFile → List Rule
  | .malformed => []
  | .flatList records => validLeading records
  | .rulesObj records => validLeading records
  | .otherData => []

/-- `RuleEngine._load_cached_remote_rules` over the discovered rule files:
each file is parsed independently inside its own `try`, contributions are
appended in file order. -/
def loadCachedRemoteRules (files : List RuleFile) : List Rule :=
  files.flatMap loadRuleFile

/-- `isinstance(x, dict)`. -/
def isMapB : Value → Bool
  | .map _ => true
  | _ => false

/-- The operator names the `elif` chain of `_evaluate_condition`
dispatches on. -/
def documentedOperators : List String :=
  [">", "<", ">=", "<=", "==", "!=", "contains", "count",
   "all_false", "none_true", "avg>"]

/-! ## Theorems -/

/-- C10: `all_false`/`none_true` with an omitted (None or empty)
`field_check` never match: the `and field_check` guard fails, evaluation
falls through to the unknown-operator branch and returns unmatched —
whatever the field value, even a sequence whose every element would
satisfy the predicate. -/
theorem c10_missing_field_check_unmatched (v : Value) (t : Value) :
    evaluateCondition v "all_false" t none = false ∧
    evaluateCondition v "all_false" t (some "") = false ∧
    evaluateCondition v "none_true" t none = false ∧
    evaluateCondition v "none_true" t (some "") = false :=
  ⟨rfl, rfl, rfl, rfl⟩

/-- C6: the `count` operator matches exactly when the field value is a
sequence whose length is strictly greater than the numeric target; a
target equal to the length never matches (length 200 with target 200 is
unmatched, target 199 matched), and a non-sequence field value never
matches. -/
lemma count_eval_on_seq (xs : List Value) (q : ℚ) (fc : Option String) :
    evaluateCondition (.seq xs) "count" (.num q) fc = decide ((xs.length : ℚ) > q) := rfl

theorem c6_count_strictly_greater (xs : List Value) (q : ℚ) (fc : Option String)
    (v : Value) (hv : isSeqB v = false) :
    evaluateCondition (.seq xs) "count" (.num q) fc = decide ((xs.length : ℚ) > q) ∧
    evaluateCondition v "count" (.num q) fc = false ∧
    evaluateCondition (.seq (List.replicate 200 Value.null)) "count" (.num 200) fc = false ∧
    evaluateCondition (.seq (List.replicate 200 Value.null)) "count" (.num 199) fc = true := by
  refine ⟨rfl, ?_, ?_, ?_⟩
  · cases v with
    | seq xs => simp [isSeqB] at hv
    | _ => rfl
  · rw [count_eval_on_seq]
    simp only [List.length_replicate]
    norm_num
  · rw [count_eval_on_seq]
    simp only [List.length_replicate]
    norm_num

/-- Witness for `c6_count_strictly_greater` at a concrete non-sequence
field value. -/
theorem c6_count_strictly_greater_witness :
    evaluateCondition (.seq [Value.null]) "count" (.num 0) none = decide (((1 : ℕ) : ℚ) > 0) ∧
    evaluateCondition Value.null "count" (.num 0) none = false :=
  ⟨(c6_count_strictly_greater [Value.null] 0 none Value.null (by rfl)).1,
   (c6_count_strictly_greater [Value.null] 0 none Value.null (by rfl)).2.1⟩

lemma allFalseCore_maps (fcn : String) (ms : List (List (String × Value))) :
    allFalseCore fcn (ms.map Value.map) =
      some (ms.all fun kvs => !truthy (mapGetD kvs fcn (.bool true))) := by
  induction ms with
  | nil => rfl
  | cons kvs ms ih =>
    simp only [List.map_cons, allFalseCore, List.all_cons]
    by_cases h : truthy (mapGetD kvs fcn (.bool true)) <;> simp [h, ih]

lemma anyTrueCore_maps (fcn : String) (ms : List (List (String × Value))) :
    anyTrueCore fcn (ms.map Value.map) =
      some (ms.any fun kvs => truthy (mapGetD kvs fcn (.bool false))) := by
  induction ms with
  | nil => rfl
  | cons kvs ms ih =>
    simp only [List.map_cons, anyTrueCore, List.any_cons]
    by_cases h : truthy (mapGetD kvs fcn (.bool false)) <;> simp [h, ih]

/-- C7: over a sequence of mappings and a non-empty `field_check`,
`all_false` matches iff every element's `field_check` sub-value is falsy —
a missing key defaults to `True` (truthy) and so prevents a match — and
`none_true` matches iff no element's sub-value is truthy (missing defaults
to `False`); a non-sequence field value matches neither. -/
theorem c7_all_false_none_true (ms : List (List (String × Value))) (fcn : String)
    (hfc : fcn ≠ "") (t : Value) (v : Value) (hv : isSeqB v = false) :
    evaluateCondition (.seq (ms.map Value.map)) "all_false" t (some fcn) =
      ms.all (fun kvs => !truthy (mapGetD kvs fcn (.bool true))) ∧
    evaluateCondition (.seq (ms.map Value.map)) "none_true" t (some fcn) =
      !(ms.any fun kvs => truthy (mapGetD kvs fcn (.bool false))) ∧
    (∀ kvs rest, mapGet kvs fcn = none →
      evaluateCondition (.seq (.map kvs :: rest)) "all_false" t (some fcn) = false) ∧
    evaluateCondition v "all_false" t (some fcn) = false ∧
    evaluateCondition v "none_true" t (some fcn) = false := by
  refine ⟨?_, ?_, ?_, ?_, ?_⟩
  · simp [evaluateCondition, evalConditionCore, fcTruthy, hfc, allFalseCore_maps]
  · simp [evaluateCondition, evalConditionCore, fcTruthy, hfc, anyTrueCore_maps]
  · intro kvs rest hmiss
    simp [evaluateCondition, evalConditionCore, fcTruthy, hfc, allFalseCore,
      mapGetD, hmiss, truthy]
  · cases v with
    | seq xs => simp [isSeqB] at hv
    | _ => simp [evaluateCondition, evalConditionCore, fcTruthy, hfc]
  · cases v with
    | seq xs => simp [isSeqB] at hv
    | _ => simp [evaluateCondition, evalConditionCore, fcTruthy, hfc]

/-- Witness for `c7_all_false_none_true`: two unreachable hosts, field
check `is_reachable`, and the non-sequence `None`. -/
theorem c7_all_false_none_true_witness :
    evaluateCondition
      (.seq [Value.map [("is_reachable", Value.bool false)],
             Value.map [("is_reachable", Value.bool false)]])
      "all_false" Value.null (some "is_reachable") =
      ([[("is_reachable", Value.bool false)], [("is_reachable", Value.bool false)]].all
        fun kvs => !truthy (mapGetD kvs "is_reachable" (.bool true))) ∧
    evaluateCondition (.seq [Value.map []]) "all_false" Value.null (some "is_reachable") = false ∧
    evaluateCondition Value.null "all_false" Value.null (some "is_reachable") = false := by
  refine ⟨?_, ?_, ?_⟩
  · exact (c7_all_false_none_true
      [[("is_reachable", Value.bool false)], [("is_reachable", Value.bool false)]]
      "is_reachable" (by decide) Value.null Value.null (by rfl)).1
  · exact (c7_all_false_none_true [] "is_reachable" (by decide) Value.null
      Value.null (by rfl)).2.2.1 [] [] (by rfl)
  · exact (c7_all_false_none_true [] "is_reachable" (by decide) Value.null
      Value.null (by rfl)).2.2.2.1

lemma avg_eval_on_seq (xs : List Value) (q : ℚ) (fc : Option String) :
    evaluateCondition (.seq xs) "avg>" (.num q) fc =
      if numericElems xs ≠ [] then
        decide ((numericElems xs).sum / ((numericElems xs).length : ℚ) > q)
      else false := by
  by_cases h : numericElems xs = [] <;>
    simp [evaluateCondition, evalConditionCore, numTarget?, isSeqB, h]

lemma numericElems_replicate_null (n : ℕ) :
    numericElems (List.replicate n Value.null) = [] := by
  induction n with
  | zero => rfl
  | succ n ih =>
    rw [List.replicate_succ]
    simp [numericElems, List.filterMap_cons]

/-- C8: `avg>` matches exactly when the sequence has at least one present
numeric element and the arithmetic mean of those elements is strictly
greater than the target; the empty sequence and an all-absent (all `None`)
sequence never match, whatever the target. -/
theorem c8_avg_strictly_greater (xs : List Value) (q : ℚ) (fc : Option String) :
    (evaluateCondition (.seq xs) "avg>" (.num q) fc = true ↔
      numericElems xs ≠ [] ∧ (numericElems xs).sum / ((numericElems xs).length : ℚ) > q) ∧
    evaluateCondition (.seq []) "avg>" (.num q) fc = false ∧
    (∀ n, evaluateCondition (.seq (List.replicate n Value.null)) "avg>" (.num q) fc = false) := by
  refine ⟨?_, ?_, ?_⟩
  · rw [avg_eval_on_seq]
    by_cases h : numericElems xs = [] <;> simp [h]
  · rw [avg_eval_on_seq]
    simp [numericElems]
  · intro n
    rw [avg_eval_on_seq]
    simp [numericElems_replicate_null]

/-- C9: the condition evaluator is total — the embedding of the `try` body
returns `Option Bool`, with `none` standing for any raised internal error,
and the `except` handler (`Option.getD false`) converts every such error
into unmatched; an operator name outside the documented set falls through
the `elif` chain to the unknown-operator branch and is likewise
unmatched. -/
theorem c9_evaluator_total (v : Value) (op : String) (t : Value) (fc : Option String) :
    (evalConditionCore v op t fc = none → evaluateCondition v op t fc = false) ∧
    (op ∉ documentedOperators → evaluateCondition v op t fc = false) := by
  constructor
  · intro h
    simp [evaluateCondition, h]
  · intro h
    simp only [documentedOperators, List.mem_cons, List.not_mem_nil, or_false,
      not_or] at h
    obtain ⟨h1, h2, h3, h4, h5, h6, h7, h8, h9, h10, h11⟩ := h
    simp [evaluateCondition, evalConditionCore, h1, h2, h3, h4, h5, h6, h7, h8,
      h9, h10, h11]

lemma wildcardResolve_filterMap_maps (ms : List (List (String × Value))) (p : String) :
    List.filterMap ((fun item =>
      match item with
      | Value.map kvs => some (getNestedValue (.map kvs) p)
      | _ => none) ∘ Value.map) ms = ms.map fun kvs => getNestedValue (.map kvs) p := by
  induction ms with
  | nil => rfl
  | cons kvs ms ih => simp [Function.comp, List.filterMap_cons, ih]

lemma wildcardResolve_filterMap_length (xs : List Value) (p : String) :
    ((xs.filterMap fun item =>
      match item with
      | Value.map kvs => some (getNestedValue (.map kvs) p)
      | _ => none)).length = (xs.filter isMapB).length := by
  induction xs with
  | nil => rfl
  | cons x xs ih => cases x <;> simp [isMapB, List.filterMap_cons, ih]

/-- Counterexample to C3 as stated: for path `"xs[*]"` the base resolves
to the sequence `[1]`, which is NOT a sequence of mappings, yet the result
is that whole sequence — the claim demands the empty sequence. -/
theorem c3_wildcard_counterexample :
    getFieldValue (Value.map [("xs", Value.seq [Value.num 1])]) "xs[*]" =
      Value.seq [Value.num 1] ∧
    Value.seq [Value.num 1] ≠ Value.seq [] :=
  ⟨rfl, by simp⟩

/-- C3 (amended): resolution of a wildcard path splits it at the first
`[*]` into base and sub-path and resolves the base.  If the base does not
resolve to a Sequence the result is the empty Sequence.  If it resolves to
a Sequence and the sub-path (a leading dot stripped) is empty, the whole
base sequence is returned unchanged, whatever its elements.  Otherwise the
sub-path is resolved against each Mapping element in input order — an
absent sub-field contributes Null — while non-Mapping elements are
skipped, contributing nothing (the result has one entry per Mapping
element). -/
theorem c3_wildcard_resolution_amended (data : Value) (basePath sub : String) :
    (isSeqB (getNestedValue data basePath) = false →
      wildcardResolve data basePath sub = Value.seq []) ∧
    (∀ xs : List Value, getNestedValue data basePath = Value.seq xs →
      stripLeadingDot sub = "" →
      wildcardResolve data basePath sub = Value.seq xs) ∧
    (∀ ms : List (List (String × Value)),
      getNestedValue data basePath = Value.seq (ms.map Value.map) →
      stripLeadingDot sub ≠ "" →
      wildcardResolve data basePath sub =
        Value.seq (ms.map fun kvs => getNestedValue (.map kvs) (stripLeadingDot sub))) ∧
    (∀ xs : List Value, getNestedValue data basePath = Value.seq xs →
      stripLeadingDot sub ≠ "" →
      ∃ ys, wildcardResolve data basePath sub = Value.seq ys ∧
        ys.length = (xs.filter isMapB).length) ∧
    (∀ p base s, splitWildcard p = some (base, s) →
      getFieldValue data p = wildcardResolve data base s) := by
  refine ⟨?_, ?_, ?_, ?_, ?_⟩
  · intro h
    unfold wildcardResolve
    cases hres : getNestedValue data basePath with
    | seq xs => rw [hres] at h; simp [isSeqB] at h
    | _ => rfl
  · intro xs hres hsub
    simp [wildcardResolve, hres, hsub]
  · intro ms hres hsub
    simp only [wildcardResolve, hres]
    rw [if_pos hsub, List.filterMap_map, wildcardResolve_filterMap_maps]
  · intro xs hres hsub
    have hx : wildcardResolve data basePath sub =
        Value.seq (xs.filterMap fun item =>
          match item with
          | Value.map kvs => some (getNestedValue (.map kvs) (stripLeadingDot sub))
          | _ => none) := by
      simp only [wildcardResolve, hres]
      rw [if_pos hsub]
    exact ⟨_, hx, wildcardResolve_filterMap_length xs (stripLeadingDot sub)⟩
  · intro p base s hsplit
    unfold getFieldValue
    rw [hsplit]

/-- Witness for `c3_wildcard_resolution_amended`: two disks, the second
missing `usage_percent` (contributes Null); splitting the concrete path
`"disks[*].usage_percent"`. -/
theorem c3_wildcard_resolution_amended_witness :
    wildcardResolve
      (Value.map [("disks", Value.seq [Value.map [("usage_percent", Value.num 97)],
        Value.map []])]) "disks" ".usage_percent" =
      Value.seq ([[("usage_percent", Value.num 97)], []].map
        fun kvs => getNestedValue (.map kvs) "usage_percent") ∧
    wildcardResolve (Value.map []) "disks" ".usage_percent" = Value.seq [] ∧
    getFieldValue (Value.map []) "disks[*].usage_percent" =
      wildcardResolve (Value.map []) "disks" ".usage_percent" := by
  refine ⟨?_, ?_, ?_⟩
  · exact (c3_wildcard_resolution_amended
      (Value.map [("disks", Value.seq [Value.map [("usage_percent", Value.num 97)],
        Value.map []])]) "disks" ".usage_percent").2.2.1
      [[("usage_percent", Value.num 97)], []] (by rfl) (by decide)
  · exact (c3_wildcard_resolution_amended (Value.map []) "disks" ".usage_percent").1 (by rfl)
  · exact (c3_wildcard_resolution_amended (Value.map []) "disks" ".usage_percent").2.2.2.2
      "disks[*].usage_percent" "disks" ".usage_percent" (by rfl)

/-- Counterexample to C2 as stated: a field path that resolves to Absent
(`None`), evaluated with `contains` and target `"on"`, MATCHES — the code
stringifies the absent value to `"None"` and `"on"` is a substring of
`"None"` — instead of being unmatched. -/
theorem c2_absent_contains_counterexample :
    getFieldValue (Value.map []) "hardware.cpu.usage_percent" = Value.null ∧
    evaluateCondition Value.null "contains" (Value.str "on") none = true :=
  ⟨rfl, rfl⟩

/-- C2 (amended): a condition whose field path resolves to Absent never
matches for `>`, `<`, `==` (with a non-null target) or `avg>` and never
throws; for `contains` the absent value is stringified to `"None"`, so the
condition matches exactly when the target is a string that is a substring
of `"None"` (e.g. `"on"`), and is unmatched for every other target. -/
theorem c2_absent_unmatched_amended (t : Value) (fc : Option String) :
    evaluateCondition Value.null ">" t fc = false ∧
    evaluateCondition Value.null "<" t fc = false ∧
    (t ≠ Value.null → evaluateCondition Value.null "==" t fc = false) ∧
    evaluateCondition Value.null "avg>" t fc = false ∧
    (∀ s : String, evaluateCondition Value.null "contains" (Value.str s) fc =
      strContains "None" s) ∧
    (∀ u : Value, (∀ s, u ≠ Value.str s) →
      evaluateCondition Value.null "contains" u fc = false) := by
  refine ⟨rfl, rfl, ?_, rfl, fun _ => rfl, ?_⟩
  · intro ht
    have hbase : evaluateCondition Value.null "==" t fc = pyEq Value.null t := rfl
    rw [hbase]
    cases t with
    | null => exact absurd rfl ht
    | _ => rfl
  · intro u hu
    cases u with
    | str s => exact absurd rfl (hu s)
    | _ => rfl

/-- Witness for `c2_absent_unmatched_amended` at concrete targets. -/
theorem c2_absent_unmatched_amended_witness :
    evaluateCondition Value.null "==" (Value.num 90) none = false ∧
    evaluateCondition Value.null "contains" (Value.str "xyz") none = strContains "None" "xyz" ∧
    evaluateCondition Value.null "contains" (Value.num 7) none = false :=
  ⟨(c2_absent_unmatched_amended (Value.num 90) none).2.2.1 (fun h => Value.noConfusion h),
   (c2_absent_unmatched_amended (Value.num 90) none).2.2.2.2.1 "xyz",
   (c2_absent_unmatched_amended (Value.num 90) none).2.2.2.2.2 (Value.num 7)
     (fun _ h => Value.noConfusion h)⟩

/-- Witness for `c9_evaluator_total`: a failed numeric coercion
(`float(None)` on `>`) and an unknown operator name both evaluate to
unmatched. -/
theorem c9_evaluator_total_witness :
    evaluateCondition Value.null ">" (Value.num 90) none = false ∧
    evaluateCondition Value.null "frobnicate" (Value.num 90) none = false :=
  ⟨(c9_evaluator_total Value.null ">" (Value.num 90) none).1 (by rfl),
   (c9_evaluator_total Value.null "frobnicate" (Value.num 90) none).2 (by decide)⟩

/-- C1: with the fallible single-rule executor abstracted (an exception
anywhere while evaluating or acting on one rule is its `.error` case),
`execute_rules` produces exactly one result per enabled rule, in order: a
failing rule yields the zero-confidence unmatched `failedResult` (matched
`false`, confidence `0`, empty evidence/actions/issues) at its own
position and never removes any other rule's result from the list. -/
theorem c1_rule_failure_isolation
    (execSingle : Rule → Except String RuleExecutionResult)
    (config : RuleEngineConfiguration) (builtinRules remoteRules : List Rule) :
    (executeRules execSingle (getAllRules config builtinRules remoteRules)).length =
      (getAllRules config builtinRules remoteRules).length ∧
    (∀ r ∈ getAllRules config builtinRules remoteRules, r.enabled = true) ∧
    (∀ (i : ℕ) (r : Rule) (e : String),
      (getAllRules config builtinRules remoteRules)[i]? = some r →
      execSingle r = .error e →
      (executeRules execSingle (getAllRules config builtinRules remoteRules))[i]? =
        some (failedResult r.rule_id)) ∧
    (∀ (i : ℕ) (r : Rule) (res : RuleExecutionResult),
      (getAllRules config builtinRules remoteRules)[i]? = some r →
      execSingle r = .ok res →
      (executeRules execSingle (getAllRules config builtinRules remoteRules))[i]? =
        some res) ∧
    (∀ rid, (failedResult rid).matched = false ∧ (failedResult rid).confidence = 0 ∧
      (failedResult rid).evidence = [] ∧ (failedResult rid).actions_taken = [] ∧
      (failedResult rid).issues_found = []) := by
  refine ⟨?_, ?_, ?_, ?_, fun rid => ⟨rfl, rfl, rfl, rfl, rfl⟩⟩
  · simp [executeRules]
  · intro r hr
    exact (List.mem_filter.mp hr).2
  · intro i r e hi herr
    rw [executeRules, List.getElem?_map, hi]
    simp [herr]
  · intro i r res hi hok
    rw [executeRules, List.getElem?_map, hi]
    simp [hok]

/-- A rule whose execution will be made to raise, for the witness. -/
def sampleRuleFail : Rule :=
  { rule_id := "r_fail", name := "failing rule", category := "hardware",
    description := "d", severity := "high", conditions := [], actions := [] }

/-- A rule whose execution succeeds, for the witness. -/
def sampleRuleOk : Rule :=
  { rule_id := "r_ok", name := "ok rule", category := "hardware",
    description := "d", severity := "high", conditions := [], actions := [] }

/-- Single-rule executor that raises on `sampleRuleFail` and runs the real
`executeSingleRule` otherwise. -/
def sampleExecSingle : Rule → Except String RuleExecutionResult := fun r =>
  if r.rule_id = "r_fail" then .error "boom"
  else .ok (executeSingleRule "t" {} r (Value.map []))

/-- Witness for `c1_rule_failure_isolation`: two enabled rules, the first
raising — the result list still has a `failedResult` entry at position 0
and the second rule's genuine result at position 1. -/
theorem c1_rule_failure_isolation_witness :
    (executeRules sampleExecSingle (getAllRules {} [sampleRuleFail, sampleRuleOk] []))[0]? =
      some (failedResult "r_fail") ∧
    (executeRules sampleExecSingle (getAllRules {} [sampleRuleFail, sampleRuleOk] []))[1]? =
      some (executeSingleRule "t" {} sampleRuleOk (Value.map [])) :=
  ⟨(c1_rule_failure_isolation sampleExecSingle {} [sampleRuleFail, sampleRuleOk] []).2.2.1
      0 sampleRuleFail "boom" (by rfl) (by rfl),
   (c1_rule_failure_isolation sampleExecSingle {} [sampleRuleFail, sampleRuleOk] []).2.2.2.1
      1 sampleRuleOk (executeSingleRule "t" {} sampleRuleOk (Value.map []))
      (by rfl) (by rfl)⟩

/-- C4: a malformed (unparseable) rule file is skipped inside its own
per-file `try`, contributing zero rules, and loading of the sibling files
is unaffected; in particular one invalid-JSON file among two valid
one-rule files yields exactly those two rules and no exception. -/
theorem c4_malformed_file_isolation (fs1 fs2 : List RuleFile) (r1 r2 : Rule) :
    loadRuleFile .malformed = [] ∧
    loadCachedRemoteRules (fs1 ++ .malformed :: fs2) =
      loadCachedRemoteRules fs1 ++ loadCachedRemoteRules fs2 ∧
    loadCachedRemoteRules [.flatList [.valid r1], .malformed, .flatList [.valid r2]] =
      [r1, r2] := by
  refine ⟨rfl, ?_, rfl⟩
  simp [loadCachedRemoteRules, List.flatMap_append, List.flatMap_cons, loadRuleFile]

/-- C5: the reported confidence of a rule's execution result is `0` when
unmatched; when matched it is the base confidence, boosted by `1.1` and
capped at `1.0` exactly when the base confidence exceeds the configured
threshold; with a base confidence in `[0,1]` (the data-model invariant)
the reported confidence never exceeds `1`. -/
theorem c5_confidence_postprocessing (now : String) (config : RuleEngineConfiguration)
    (rule : Rule) (snapshotDict : Value) (hbase : rule.confidence ≤ 1) :
    ((executeSingleRule now config rule snapshotDict).matched = false →
      (executeSingleRule now config rule snapshotDict).confidence = 0) ∧
    ((executeSingleRule now config rule snapshotDict).matched = true →
      (executeSingleRule now config rule snapshotDict).confidence =
        (if rule.confidence > config.rule_confidence_threshold then
          min 1 (rule.confidence * (11/10)) else rule.confidence)) ∧
    (executeSingleRule now config rule snapshotDict).confidence ≤ 1 := by
  rcases hcc : checkConditions snapshotDict rule.conditions with ⟨m, ev⟩
  have hconf : (executeSingleRule now config rule snapshotDict).confidence =
      postConfidence m rule.confidence config.rule_confidence_threshold := by
    simp [executeSingleRule, hcc]
  have hmatch : (executeSingleRule now config rule snapshotDict).matched = m := by
    simp [executeSingleRule, hcc]
  refine ⟨?_, ?_, ?_⟩
  · intro h
    rw [hmatch] at h
    subst h
    rw [hconf]
    simp [postConfidence]
  · intro h
    rw [hmatch] at h
    subst h
    rw [hconf]
    by_cases hgt : rule.confidence > config.rule_confidence_threshold
    · simp [postConfidence, hgt]
    · simp [postConfidence, hgt]
  · rw [hconf]
    cases m with
    | false => simp [postConfidence]
    | true =>
      by_cases hgt : rule.confidence > config.rule_confidence_threshold
      · simp only [postConfidence, hgt, and_true, if_true, if_pos]
        exact min_le_left _ _
      · simp only [postConfidence, hgt, and_false, if_false]
        simpa using hbase

/-- A matched rule above the default threshold, for the confidence
witness. -/
def sampleRuleBoost : Rule :=
  { rule_id := "r_boost", name := "boosted rule", category := "hardware",
    description := "d", severity := "high", conditions := [], actions := [],
    confidence := 9/10 }

/-- Witness for `c5_confidence_postprocessing` at a concrete matched rule
with base confidence 0.9 over threshold 0.8. -/
theorem c5_confidence_postprocessing_witness :
    ((executeSingleRule "t" {} sampleRuleBoost (Value.map [])).matched = false →
      (executeSingleRule "t" {} sampleRuleBoost (Value.map [])).confidence = 0) ∧
    ((executeSingleRule "t" {} sampleRuleBoost (Value.map [])).matched = true →
      (executeSingleRule "t" {} sampleRuleBoost (Value.map [])).confidence =
        (if sampleRuleBoost.confidence > ({} : RuleEngineConfiguration).rule_confidence_threshold then
          min 1 (sampleRuleBoost.confidence * (11/10)) else sampleRuleBoost.confidence)) ∧
    (executeSingleRule "t" {} sampleRuleBoost (Value.map [])).confidence ≤ 1 :=
  c5_confidence_postprocessing "t" {} sampleRuleBoost (Value.map [])
    (by norm_num [sampleRuleBoost])

end SysGraph
